import Mathlib

/-!
Shallow embedding of the Redit modal text editor core (src/src/main.rs).

The editor state, cursor, input translators (`handle_*_mode_event`) and the
action applier (the big `match action` in `main`) are translated directly
from the Rust source.  Rendering fields (`stdout`, `columns`, `rows`) and the
drawing functions are excluded: they perform terminal I/O only and never
touch the core state.

Modelling conventions:
- Rust `usize` is modelled as `Nat`; `usize::MAX` is the constant
  `usizeMax = 2 ^ 64 - 1`, used by the source only as an "unbounded" upper
  bound for the saturating cursor moves.  `saturating_sub` is `Nat`
  subtraction.  The expression `editor.lines.len() - 1` in the source is
  modelled with `Nat` subtraction; the buffer always has at least one line
  in reachable states, so the subtraction is exact there.
- Rust `String` is modelled as `List Char` (the buffer only ever receives
  one `char` at a time, so byte indices and char indices agree for the
  inputs the claims exercise).
- Operations that can panic (`Vec::remove`, `Vec::insert`, `String::remove`
  out of bounds, and the `unimplemented!()` body of
  `Cursor::move_cursor_to_end`) are modelled in `Option`: `none` is a panic
  of the process, so a step that panics produces no next state.
-/

namespace Redit

/-- `usize::MAX`, used by the source as an "unbounded" boundary. -/
def usizeMax : Nat := 2 ^ 64 - 1

/-- `struct Cursor { x: usize, y: usize }`. -/
structure Cursor where
  x : Nat
  y : Nat
deriving DecidableEq

namespace Cursor

/-- `Cursor::new`. -/
def new : Cursor := { x := 0, y := 0 }

/-- `fn move_left(&mut self) { self.x = self.x.saturating_sub(1); }` -/
def move_left (c : Cursor) : Cursor := { c with x := c.x - 1 }

/-- `fn move_right(&mut self, boundary: usize) { self.x = min(boundary, self.x + 1); }` -/
def move_right (c : Cursor) (boundary : Nat) : Cursor :=
  { c with x := min boundary (c.x + 1) }

/-- `fn move_down(&mut self, boundary: usize) { self.y = min(boundary, self.y + 1); }` -/
def move_down (c : Cursor) (boundary : Nat) : Cursor :=
  { c with y := min boundary (c.y + 1) }

/-- `fn move_up(&mut self) { self.y = self.y.saturating_sub(1); }` -/
def move_up (c : Cursor) : Cursor := { c with y := c.y - 1 }

/-- `fn move_cursor_to_begin(&mut self) { self.x = 0; self.y = 0; }` -/
def move_cursor_to_begin (_c : Cursor) : Cursor := { x := 0, y := 0 }

/-- `fn move_cursor_to_end(&mut self) { unimplemented!(); }` — always panics,
so it never produces a cursor. -/
def move_cursor_to_end (_c : Cursor) : Option Cursor := none

/-- `fn get_position(&self) -> (usize, usize)`. -/
def get_position (c : Cursor) : Nat × Nat := (c.x, c.y)

end Cursor

/-- `enum EditorMode { Insert, Visual, Command }`.  `Visual` is the
navigation mode of the spec, `Command` its command-entry mode. -/
inductive EditorMode
  | Insert
  | Visual
  | Command
deriving DecidableEq

/-- `crossterm::event::KeyCode`, restricted to the variants the translators
match on; every other key code is collapsed into `OtherKey`. -/
inductive KeyCode
  | Esc
  | Enter
  | Backspace
  | Char (c : Char)
  | OtherKey
deriving DecidableEq

/-- `crossterm::event::Event`: a key event, or any other event kind. -/
inductive Event
  | Key (code : KeyCode)
  | OtherEvent
deriving DecidableEq

/-- `enum Action`, verbatim from the source (including the
`ClearShortuctBuffer` spelling). -/
inductive Action
  | EnterInsertMode
  | EnterVisualMode
  | EnterCommandMode
  | MoveCursorLeft
  | MoveCursorRight
  | MoveCursorDown
  | MoveCursorUp
  | Quit
  | Unknown
  | EnterCommandChar (c : Char)
  | ExecuteCommand
  | EnterChar (c : Char)
  | NewLine
  | EnterInsertModeNext
  | AppendShortcutChar (c : Char)
  | ClearShortuctBuffer
  | BackspaceInInsertMode
  | EnterInsertModeInNewLine
  | RemoveCursorChar
deriving DecidableEq

/-- `struct Editor`, without the render-only fields `stdout`, `columns`,
`rows` (they are never read or written by the core transition). -/
structure Editor where
  cursor : Cursor
  mode : EditorMode
  quit : Bool
  lines : List (List Char)
  command : List Char
  shortcut_buffer : List Char
deriving DecidableEq

namespace Editor

/-- `Editor::new` (the buffer starts as `vec![String::new()]`, the mode as
`Visual`). -/
def new : Editor :=
  { cursor := Cursor.new
    mode := EditorMode.Visual
    quit := false
    lines := [[]]
    command := []
    shortcut_buffer := [] }

/-- `fn execute_command(&mut self)`: exact match on `"q"` sets `quit`;
everything else falls through silently. -/
def execute_command (e : Editor) : Editor :=
  if e.command = ['q'] then { e with quit := true } else e

end Editor

/-- `Vec::remove(i)` / `String::remove(i)`: panics (`none`) when the index
is out of bounds, otherwise removes the element at `i`. -/
def vecRemove {α : Type} (l : List α) (i : Nat) : Option (List α) :=
  if i < l.length then some (l.eraseIdx i) else none

/-- `Vec::insert(i, a)`: panics (`none`) when `i > len`, otherwise inserts
`a` at position `i`. -/
def vecInsert {α : Type} (l : List α) (i : Nat) (a : α) : Option (List α) :=
  if i ≤ l.length then some (l.insertIdx i a) else none

/-- The action applier: the `match action { ... }` block of `main`,
branch by branch.  `none` models a panic of the process. -/
def applyAction (e : Editor) (a : Action) : Option Editor :=
  match a with
  | Action.Quit => some { e with quit := true }
  | Action.EnterInsertMode => some { e with mode := EditorMode.Insert }
  | Action.EnterInsertModeNext =>
      some { e with mode := EditorMode.Insert
                    cursor := e.cursor.move_right usizeMax }
  | Action.EnterInsertModeInNewLine =>
      let c_row := e.cursor.y
      if c_row = e.lines.length - 1 then
        some { e with lines := e.lines ++ [[]]
                      mode := EditorMode.Insert
                      cursor := e.cursor.move_down usizeMax }
      else
        (vecInsert e.lines (c_row + 1) []).map fun ls =>
          { e with lines := ls
                   mode := EditorMode.Insert
                   cursor := e.cursor.move_down usizeMax }
  | Action.EnterVisualMode =>
      let e1 := if e.mode = EditorMode.Command then { e with command := [] } else e
      let e2 :=
        if e1.mode = EditorMode.Insert then
          match e1.lines[e1.cursor.y]? with
          | some line =>
              if line.length = e1.cursor.x then { e1 with cursor := e1.cursor.move_left }
              else e1
          | none => e1
        else e1
      some { e2 with mode := EditorMode.Visual }
  | Action.EnterCommandMode => some { e with mode := EditorMode.Command }
  | Action.MoveCursorLeft => some { e with cursor := e.cursor.move_left }
  | Action.MoveCursorRight =>
      match e.lines[e.cursor.y]? with
      | some line =>
          if line.length = 0 then some { e with cursor := e.cursor.move_right 0 }
          else some { e with cursor := e.cursor.move_right (line.length - 1) }
      | none => some e
  | Action.MoveCursorDown =>
      let rows := e.lines.length
      let e1 := if rows = 1 then { e with cursor := e.cursor.move_down 0 } else e
      some { e1 with cursor := e1.cursor.move_down (rows - 1) }
  | Action.MoveCursorUp => some { e with cursor := e.cursor.move_up }
  | Action.EnterCommandChar c => some { e with command := e.command ++ [c] }
  | Action.ExecuteCommand => some e.execute_command
  | Action.EnterChar c =>
      match e.lines[e.cursor.y]? with
      | some line =>
          if line.isEmpty then
            some { e with lines := e.lines.set e.cursor.y (line ++ [c])
                          cursor := e.cursor.move_right usizeMax }
          else if line.length < e.cursor.x then
            some { e with lines := e.lines.set e.cursor.y (line ++ [c])
                          cursor := e.cursor.move_right usizeMax }
          else
            some { e with lines := e.lines.set e.cursor.y (line.insertIdx e.cursor.x c)
                          cursor := e.cursor.move_right usizeMax }
      | none => some e
  | Action.NewLine =>
      some { e with lines := e.lines ++ [[]]
                    cursor := e.cursor.move_down usizeMax }
  | Action.AppendShortcutChar c =>
      let buf := e.shortcut_buffer ++ [c]
      if buf = ['g', 'g'] then
        some { e with cursor := e.cursor.move_cursor_to_begin
                      shortcut_buffer := [] }
      else if buf = ['G'] then
        (e.cursor.move_cursor_to_end).map fun cu =>
          { e with cursor := cu, shortcut_buffer := [] }
      else if buf = ['d', 'd'] then
        if 1 < e.lines.length then
          (vecRemove e.lines e.cursor.y).map fun ls =>
            { e with lines := ls, shortcut_buffer := [] }
        else
          some { e with shortcut_buffer := [] }
      else
        some { e with shortcut_buffer := buf }
  | Action.BackspaceInInsertMode =>
      let c_col := e.cursor.x
      let c_row := e.cursor.y
      if c_col = 0 ∧ c_row ≠ 0 then
        match e.lines[c_row]? with
        | some line =>
            if line.isEmpty then
              (vecRemove e.lines c_row).map fun ls => { e with lines := ls }
            else
              -- source comment: "move line content to line above" (not implemented)
              some e
        | none => some e
      else if 0 < c_col then
        match e.lines[c_row]? with
        | some line =>
            (vecRemove line (c_col - 1)).map fun l =>
              { e with lines := e.lines.set c_row l
                       cursor := e.cursor.move_left }
        | none => some e
      else
        some e
  | Action.ClearShortuctBuffer => some { e with shortcut_buffer := [] }
  | Action.RemoveCursorChar =>
      let c_col := e.cursor.x
      let c_row := e.cursor.y
      match e.lines[c_row]? with
      | some line =>
          if line.isEmpty then some e
          else
            (vecRemove line c_col).map fun l =>
              let e1 := { e with lines := e.lines.set c_row l }
              if c_col = l.length then { e1 with cursor := e1.cursor.move_left }
              else e1
      | none => some e
  | Action.Unknown => some e

/-- `fn handle_insert_mode_event(event: &Event) -> Action`. -/
def handle_insert_mode_event : Event → Action
  | Event.Key KeyCode.Esc => Action.EnterVisualMode
  | Event.Key KeyCode.Enter => Action.NewLine
  | Event.Key KeyCode.Backspace => Action.BackspaceInInsertMode
  | Event.Key (KeyCode.Char c) => Action.EnterChar c
  | _ => Action.Unknown

/-- `fn handle_visual_mode_event(event: &Event) -> Action`. -/
def handle_visual_mode_event : Event → Action
  | Event.Key KeyCode.Esc => Action.ClearShortuctBuffer
  | Event.Key (KeyCode.Char c) =>
      if c = 'i' then Action.EnterInsertMode
      else if c = 'a' then Action.EnterInsertModeNext
      else if c = 'o' then Action.EnterInsertModeInNewLine
      else if c = ':' then Action.EnterCommandMode
      else if c = 'h' then Action.MoveCursorLeft
      else if c = 'l' then Action.MoveCursorRight
      else if c = 'j' then Action.MoveCursorDown
      else if c = 'k' then Action.MoveCursorUp
      else if c = 'x' then Action.RemoveCursorChar
      else Action.AppendShortcutChar c
  | _ => Action.Unknown

/-- `fn handle_command_mode_event(event: &Event) -> Action`. -/
def handle_command_mode_event : Event → Action
  | Event.Key KeyCode.Esc => Action.EnterVisualMode
  | Event.Key KeyCode.Enter => Action.ExecuteCommand
  | Event.Key (KeyCode.Char c) => Action.EnterCommandChar c
  | _ => Action.Unknown

/-- The `match editor.mode` dispatch of the main loop: translate one raw
event, in the current mode, to an `Action`. -/
def translate (m : EditorMode) (ev : Event) : Action :=
  match m with
  | EditorMode.Insert => handle_insert_mode_event ev
  | EditorMode.Visual => handle_visual_mode_event ev
  | EditorMode.Command => handle_command_mode_event ev

/-- One iteration of the main loop on one input event: translate, then
apply.  `none` is a panic of the process. -/
def stepEvent (e : Editor) (ev : Event) : Option Editor :=
  applyAction e (translate e.mode ev)

/-- Run the main loop over a list of input events. -/
def run (e : Editor) : List Event → Option Editor
  | [] => some e
  | ev :: evs => (stepEvent e ev).bind fun e1 => run e1 evs

/-- A state is reachable when some input sequence drives the freshly
created editor to it without panicking. -/
def Reachable (e : Editor) : Prop :=
  ∃ evs : List Event, run Editor.new evs = some e

/-- The exact conditions under which applying an action aborts the process:
the shortcut buffer becoming `"G"` (`unimplemented!()`), `"dd"` firing with
the cursor row past the end of a multi-line buffer (`Vec::remove` out of
bounds), `o` with the cursor row past the end (`Vec::insert` out of
bounds), backspace with the column past the line length, and
delete-under-cursor with the column past the last character of a non-empty
line (`String::remove` out of bounds). -/
def panicCondition (e : Editor) (a : Action) : Bool :=
  match a with
  | Action.AppendShortcutChar c =>
      let buf := e.shortcut_buffer ++ [c]
      buf = ['G'] ∨ (buf = ['d', 'd'] ∧ 1 < e.lines.length ∧ e.lines.length ≤ e.cursor.y)
  | Action.EnterInsertModeInNewLine =>
      ¬ e.cursor.y = e.lines.length - 1 ∧ e.lines.length < e.cursor.y + 1
  | Action.BackspaceInInsertMode =>
      match e.lines[e.cursor.y]? with
      | some line => 0 < e.cursor.x ∧ line.length ≤ e.cursor.x - 1
      | none => false
  | Action.RemoveCursorChar =>
      match e.lines[e.cursor.y]? with
      | some line => ¬ line.isEmpty ∧ line.length ≤ e.cursor.x
      | none => false
  | _ => false

/-! ## Helper lemmas -/

set_option maxRecDepth 8192 in
/-- Every single applied action keeps the buffer non-empty: the only two
removal sites (`dd` and backspace-on-empty-line) are guarded so that a line
is only removed when at least two lines exist. -/
theorem applyAction_lines_length_pos (e : Editor) (a : Action) (e' : Editor)
    (hlen : 1 ≤ e.lines.length) (h : applyAction e a = some e') :
    1 ≤ e'.lines.length := by
  cases a
  case RemoveCursorChar =>
    simp only [applyAction, vecRemove] at h
    (repeat' split at h) <;>
      (try simp only [Option.map_some', Option.map_none'] at h) <;>
      (try cases h) <;>
      (repeat' split) <;>
      simpa using hlen
  all_goals
    simp only [applyAction, Editor.execute_command, vecRemove, vecInsert,
      Cursor.move_cursor_to_end] at h <;>
    (repeat' split at h) <;>
    (try simp only [Option.map_some', Option.map_none'] at h) <;>
    (try cases h) <;>
    (repeat' split) <;>
    simp_all [List.length_eraseIdx, List.length_insertIdx] <;>
    omega

/-- Running any event sequence preserves buffer non-emptiness. -/
theorem run_lines_length_pos (evs : List Event) (e e' : Editor)
    (h : run e evs = some e') (hlen : 1 ≤ e.lines.length) :
    1 ≤ e'.lines.length := by
  induction evs generalizing e with
  | nil =>
      simp only [run] at h
      cases h
      exact hlen
  | cons ev evs ih =>
      simp only [run, Option.bind_eq_some] at h
      obtain ⟨e1, h1, hrest⟩ := h
      exact ih e1 hrest (applyAction_lines_length_pos e _ e1 hlen h1)

set_option maxRecDepth 8192 in
/-- Applying an action succeeds exactly outside the abort conditions listed
in `panicCondition`. -/
theorem applyAction_isSome (e : Editor) (a : Action)
    (hp : panicCondition e a = false) : (applyAction e a).isSome = true := by
  cases a
  case BackspaceInInsertMode =>
    simp only [panicCondition] at hp
    simp only [applyAction, vecRemove]
    split
    · split
      · rename_i heq
        obtain ⟨hy, -⟩ := List.getElem?_eq_some_iff.mp heq
        split
        · simp [if_pos hy]
        · rfl
      · rfl
    · split
      · split
        · rename_i hx _ line heq
          rw [heq] at hp
          simp only [decide_eq_false_iff_not, not_and, not_le] at hp
          simp [if_pos (hp hx)]
        · rfl
      · rfl
  case RemoveCursorChar =>
    simp only [panicCondition] at hp
    simp only [applyAction, vecRemove]
    split
    · rename_i line heq
      rw [heq] at hp
      simp only [decide_eq_false_iff_not, not_and, not_le] at hp
      split
      · rfl
      · rename_i hne
        simp [if_pos (hp hne)]
    · rfl
  all_goals
    simp only [panicCondition] at hp <;>
    simp only [applyAction, Editor.execute_command, vecRemove, vecInsert,
      Cursor.move_cursor_to_end] <;>
    (repeat' split) <;>
    simp_all <;>
    omega

/-! ## Claims -/

/-- Claim C1, counterexample: the reachable-state invariant
`lines.length ≥ 1 ∧ cursor.row < lines.length` is violated by the code.
From the initial state, the events `o`, `Esc`, `d`, `d` open a second line
below, return to navigation (cursor row 1), and fire the `dd` shortcut,
which removes the current line without adjusting the cursor: the resulting
reachable state has one line but cursor row 1, so `cursor.row <
lines.length` fails. -/
theorem c1_counterexample :
    ∃ e, Reachable e ∧ ¬ (e.cursor.y < e.lines.length) := by
  refine ⟨{ cursor := { x := 0, y := 1 }, mode := EditorMode.Visual, quit := false,
            lines := [[]], command := [], shortcut_buffer := [] },
    ⟨[Event.Key (KeyCode.Char 'o'), Event.Key KeyCode.Esc,
      Event.Key (KeyCode.Char 'd'), Event.Key (KeyCode.Char 'd')], ?_⟩, ?_⟩ <;> decide

/-- Claim C1, amended: for every reachable editor state, the buffer
contains at least one line (`lines.length ≥ 1`).  The second half of the
original claim, `cursor.row < lines.length`, does not hold (see the
counterexample): `dd` and backspace-on-an-empty-line remove the line under
the cursor without pulling the cursor row back when it was on the last
line. -/
theorem c1_lines_length_invariant (e : Editor) (h : Reachable e) :
    1 ≤ e.lines.length := by
  obtain ⟨evs, hrun⟩ := h
  exact run_lines_length_pos evs Editor.new e hrun (by decide)

/-- Witness for C1: the initial state is reachable and satisfies the
invariant. -/
theorem c1_witness : Reachable Editor.new ∧ 1 ≤ Editor.new.lines.length :=
  ⟨⟨[], rfl⟩, c1_lines_length_invariant Editor.new ⟨[], rfl⟩⟩

/-- Claim C2, counterexample: not every (state, event) pair produces a next
state.  Pressing `G` in the freshly created editor (Navigation mode) makes
the shortcut buffer exactly `"G"`, which calls
`Cursor::move_cursor_to_end`, whose body is `unimplemented!()`: the process
panics, so the step yields no next state. -/
theorem c2_counterexample :
    stepEvent Editor.new (Event.Key (KeyCode.Char 'G')) = none := by decide

/-- Claim C2, amended: applying the translated action produces a next state
for every editor state and input event except the abort cases of
`panicCondition`: the shortcut buffer becoming `"G"` (`unimplemented!()`);
`dd` firing on a multi-line buffer with the cursor row out of range
(`Vec::remove`); `o` with the cursor row out of range (`Vec::insert`);
backspace with `0 < column` and `column - 1` past the line length
(`String::remove`); and delete-under-cursor with the column at or past the
length of a non-empty line (`String::remove`).  In particular the claim's
examples both fail: the `G` shortcut and delete-under-cursor with an
out-of-range column abort. -/
theorem c2_step_total (e : Editor) (ev : Event)
    (hp : panicCondition e (translate e.mode ev) = false) :
    (stepEvent e ev).isSome = true :=
  applyAction_isSome e (translate e.mode ev) hp

/-- Witness for C2: pressing `j` in the initial state is not an abort case
and indeed produces a next state. -/
theorem c2_witness :
    panicCondition Editor.new (translate Editor.new.mode (Event.Key (KeyCode.Char 'j'))) = false
      ∧ (stepEvent Editor.new (Event.Key (KeyCode.Char 'j'))).isSome = true :=
  ⟨by decide, c2_step_total Editor.new (Event.Key (KeyCode.Char 'j')) (by decide)⟩

/-- Claim C3: the `G` shortcut should move the cursor to the end of the
document (column 0, last row) and clear the shortcut buffer.  The code
instead calls `Cursor::move_cursor_to_end`, whose body is
`unimplemented!()`: the process panics before the buffer is cleared.
Failing input: a two-line document (events `o`, `Esc` from startup) with
`G` pressed in Navigation mode — the run produces no state at all. -/
theorem c3_G_shortcut_panics :
    run Editor.new [Event.Key (KeyCode.Char 'o'), Event.Key KeyCode.Esc,
      Event.Key (KeyCode.Char 'G')] = none := by decide

/-- Claim C4, counterexample: Enter in Insertion mode does not insert the
new empty line immediately after the cursor row.  Reaching the state
`lines = ["a", "b"]`, cursor row 0 in Insertion mode (events `i`, `a`,
Enter, `b`, Esc, `k`, `i`) and pressing Enter yields
`lines = ["a", "b", ""]` with cursor row 1 — the line at index 1 (just
after row 0) is `"b"`, not a brand-new empty line, which would have
required `lines = ["a", "", "b"]`. -/
theorem c4_counterexample :
    ∃ e', run Editor.new [Event.Key (KeyCode.Char 'i'), Event.Key (KeyCode.Char 'a'),
        Event.Key KeyCode.Enter, Event.Key (KeyCode.Char 'b'), Event.Key KeyCode.Esc,
        Event.Key (KeyCode.Char 'k'), Event.Key (KeyCode.Char 'i'), Event.Key KeyCode.Enter]
        = some e'
      ∧ e'.cursor.y = 1 ∧ e'.lines = [['a'], ['b'], []]
      ∧ e'.lines[1]? ≠ some [] := by
  refine ⟨{ cursor := { x := 2, y := 1 }, mode := EditorMode.Insert, quit := false,
            lines := [['a'], ['b'], []], command := [], shortcut_buffer := [] },
    ?_, ?_, ?_, ?_⟩ <;> decide

/-- Claim C4, amended: for every state in Insertion mode, pressing Enter
appends a brand-new empty line at the end of the buffer (not after the
cursor row) and moves the cursor down by one row, leaving the column
unchanged.  (The hypothesis `cursor.y + 1 ≤ usizeMax` discharges the
saturation of `move_down(usize::MAX)`.) -/
theorem c4_enter_appends_at_end (e : Editor) (hm : e.mode = EditorMode.Insert)
    (hy : e.cursor.y + 1 ≤ usizeMax) :
    stepEvent e (Event.Key KeyCode.Enter)
      = some { e with lines := e.lines ++ [[]]
                      cursor := { e.cursor with y := e.cursor.y + 1 } } := by
  simp only [stepEvent, translate, hm, handle_insert_mode_event, applyAction,
    Cursor.move_down]
  rw [Nat.min_eq_right hy]

/-- Witness for C4: Enter in a concrete one-line Insertion-mode state. -/
theorem c4_witness :
    stepEvent { cursor := { x := 0, y := 0 }, mode := EditorMode.Insert, quit := false,
                lines := [[]], command := [], shortcut_buffer := [] }
        (Event.Key KeyCode.Enter)
      = some { cursor := { x := 0, y := 1 }, mode := EditorMode.Insert, quit := false,
               lines := [[], []], command := [], shortcut_buffer := [] } :=
  c4_enter_appends_at_end
    { cursor := { x := 0, y := 0 }, mode := EditorMode.Insert, quit := false,
      lines := [[]], command := [], shortcut_buffer := [] } rfl (by decide)

/-- Claim C5, counterexample: committing in CommandEntry mode does not
clear `command_text` and does not return to Navigation.  From startup, the
events `:`, `z`, Enter leave the editor still in Command mode with
`command_text = "z"`. -/
theorem c5_counterexample :
    ∃ e', run Editor.new [Event.Key (KeyCode.Char ':'), Event.Key (KeyCode.Char 'z'),
        Event.Key KeyCode.Enter] = some e'
      ∧ e'.mode ≠ EditorMode.Visual ∧ e'.command ≠ [] := by
  refine ⟨{ cursor := { x := 0, y := 0 }, mode := EditorMode.Command, quit := false,
            lines := [[]], command := ['z'], shortcut_buffer := [] },
    ?_, ?_, ?_⟩ <;> decide

/-- Claim C5, amended: committing (Enter) in CommandEntry mode only
executes the command — it sets `should_quit` when `command_text` is `"q"`
and otherwise changes nothing; in particular the mode stays CommandEntry
and `command_text` is kept.  `command_text` is cleared and the mode
returns to Navigation on Esc instead. -/
theorem c5_commit_keeps_mode_and_text (e : Editor) (hm : e.mode = EditorMode.Command) :
    stepEvent e (Event.Key KeyCode.Enter)
        = some { e with quit := if e.command = ['q'] then true else e.quit }
      ∧ stepEvent e (Event.Key KeyCode.Esc)
        = some { e with mode := EditorMode.Visual, command := [] } := by
  have ht1 : translate e.mode (Event.Key KeyCode.Enter) = Action.ExecuteCommand := by
    rw [hm]; rfl
  have ht2 : translate e.mode (Event.Key KeyCode.Esc) = Action.EnterVisualMode := by
    rw [hm]; rfl
  constructor
  · simp only [stepEvent, ht1, applyAction, Editor.execute_command]
    by_cases hc : e.command = ['q'] <;> simp [hc]
  · simp only [stepEvent, ht2, applyAction]
    simp [hm]

/-- Witness for C5: committing `"z"` in a concrete Command-mode state. -/
theorem c5_witness :
    stepEvent { cursor := { x := 0, y := 0 }, mode := EditorMode.Command, quit := false,
                lines := [[]], command := ['z'], shortcut_buffer := [] }
        (Event.Key KeyCode.Enter)
      = some { cursor := { x := 0, y := 0 }, mode := EditorMode.Command, quit := false,
               lines := [[]], command := ['z'], shortcut_buffer := [] } :=
  (c5_commit_keeps_mode_and_text
    { cursor := { x := 0, y := 0 }, mode := EditorMode.Command, quit := false,
      lines := [[]], command := ['z'], shortcut_buffer := [] } rfl).1

/-- Claim C6, counterexample: a partially typed shortcut survives a mode
switch.  From startup, pressing `d` (shortcut buffer becomes `"d"`) and
then `i` enters Insertion mode with the shortcut buffer still `"d"` — it
is not cleared on leaving Navigation. -/
theorem c6_counterexample :
    ∃ e', run Editor.new [Event.Key (KeyCode.Char 'd'), Event.Key (KeyCode.Char 'i')]
        = some e'
      ∧ e'.mode = EditorMode.Insert ∧ e'.shortcut_buffer ≠ [] := by
  refine ⟨{ cursor := { x := 0, y := 0 }, mode := EditorMode.Insert, quit := false,
            lines := [[]], command := [], shortcut_buffer := ['d'] },
    ?_, ?_, ?_⟩ <;> decide

/-- Claim C6, amended: the shortcut buffer is NOT cleared on mode
switches: leaving Navigation via `i`, `a`, `o` or `:` preserves it, and so
does re-entering Navigation from CommandEntry via Esc.  (It is cleared
only when a shortcut fires or when Esc is pressed inside Navigation
mode.) -/
theorem c6_shortcut_buffer_survives_mode_switch :
    (∀ (e : Editor) (c : Char) (e' : Editor), e.mode = EditorMode.Visual →
        (c = 'i' ∨ c = 'a' ∨ c = 'o' ∨ c = ':') →
        stepEvent e (Event.Key (KeyCode.Char c)) = some e' →
        e'.shortcut_buffer = e.shortcut_buffer)
      ∧ (∀ (e e' : Editor), e.mode = EditorMode.Command →
        stepEvent e (Event.Key KeyCode.Esc) = some e' →
        e'.shortcut_buffer = e.shortcut_buffer) := by
  constructor
  · intro e c e' hm hc h
    rcases hc with rfl | rfl | rfl | rfl <;>
      simp only [stepEvent, translate, hm, handle_visual_mode_event, applyAction,
        vecInsert] at h <;>
      (repeat' split at h) <;>
      (try simp only [Option.map_some', Option.map_none'] at h) <;>
      (try cases h) <;>
      simp_all
  · intro e e' hm h
    have ht : translate e.mode (Event.Key KeyCode.Esc) = Action.EnterVisualMode := by
      rw [hm]; rfl
    simp only [stepEvent, ht, applyAction, hm] at h
    simp at h
    cases h
    rfl

/-- Witness for C6: a concrete Navigation-mode state with a pending `d`
entering Insertion mode via `i`, and a concrete Command-mode state
returning to Navigation via Esc, both keeping their shortcut buffers. -/
theorem c6_witness :
    (∃ e', stepEvent { cursor := { x := 0, y := 0 }, mode := EditorMode.Visual, quit := false, lines := [[]], command := [], shortcut_buffer := ['d'] } (Event.Key (KeyCode.Char 'i')) = some e' ∧ e'.shortcut_buffer = ['d'])
      ∧ (∃ e', stepEvent { cursor := { x := 0, y := 0 }, mode := EditorMode.Command, quit := false, lines := [[]], command := [], shortcut_buffer := ['d'] } (Event.Key KeyCode.Esc) = some e' ∧ e'.shortcut_buffer = ['d']) := by
  constructor
  · refine ⟨{ cursor := { x := 0, y := 0 }, mode := EditorMode.Insert, quit := false,
              lines := [[]], command := [], shortcut_buffer := ['d'] }, by decide, ?_⟩
    exact c6_shortcut_buffer_survives_mode_switch.1
      { cursor := { x := 0, y := 0 }, mode := EditorMode.Visual, quit := false,
        lines := [[]], command := [], shortcut_buffer := ['d'] } 'i' _ rfl (Or.inl rfl)
      (by decide)
  · refine ⟨{ cursor := { x := 0, y := 0 }, mode := EditorMode.Visual, quit := false,
              lines := [[]], command := [], shortcut_buffer := ['d'] }, by decide, ?_⟩
    exact c6_shortcut_buffer_survives_mode_switch.2
      { cursor := { x := 0, y := 0 }, mode := EditorMode.Command, quit := false,
        lines := [[]], command := [], shortcut_buffer := ['d'] } _ rfl (by decide)

/-- Claim C7, counterexample: the "if and only if" direction fails at
column 0 on an empty line.  In Insertion mode with `lines = [""]` and
cursor `(0, 0)`, the column equals the line length (both 0), so the claim
requires the column to decrease by one — but `move_left` saturates at 0
and the cursor stays at column 0 (no decrease, `¬ 0 < 0`). -/
theorem c7_counterexample :
    stepEvent ⟨⟨0, 0⟩, EditorMode.Insert, false, [[]], [], []⟩ (Event.Key KeyCode.Esc)
      = some ⟨⟨0, 0⟩, EditorMode.Visual, false, [[]], [], []⟩
      ∧ ¬ ((0 : Nat) < 0) := ⟨by decide, by decide⟩

/-- Claim C7, amended: pressing Esc in Insertion mode returns to
Navigation; if the cursor row indexes an existing line whose length equals
the cursor column, the column moves left by one saturating at 0 (so at
column 0 on an empty line it stays 0); otherwise the cursor is
unchanged. -/
theorem c7_esc_to_navigation (e : Editor) (hm : e.mode = EditorMode.Insert) :
    stepEvent e (Event.Key KeyCode.Esc)
      = some { e with mode := EditorMode.Visual
                      cursor := { e.cursor with x :=
                        match e.lines[e.cursor.y]? with
                        | some line =>
                            if line.length = e.cursor.x then e.cursor.x - 1 else e.cursor.x
                        | none => e.cursor.x } } := by
  have ht : translate e.mode (Event.Key KeyCode.Esc) = Action.EnterVisualMode := by
    rw [hm]; rfl
  simp only [stepEvent, ht, applyAction]
  cases hl : e.lines[e.cursor.y]? with
  | none => simp [hm, hl]
  | some line =>
      by_cases hlen : line.length = e.cursor.x <;> simp [hm, hl, hlen, Cursor.move_left]

/-- Witness for C7: Esc at end-of-line on `"a"` (column 1 = length 1)
moves the cursor to column 0 and switches to Navigation. -/
theorem c7_witness :
    stepEvent ⟨⟨1, 0⟩, EditorMode.Insert, false, [['a']], [], []⟩ (Event.Key KeyCode.Esc)
      = some ⟨⟨0, 0⟩, EditorMode.Visual, false, [['a']], [], []⟩ := by
  have h := c7_esc_to_navigation ⟨⟨1, 0⟩, EditorMode.Insert, false, [['a']], [], []⟩ rfl
  simpa using h

/-- Claim C8: committing in CommandEntry mode sets `should_quit` exactly
when `command_text` is `"q"`; any other command leaves it `false` and is
silently ignored (the step still produces a state, surfacing no error). -/
theorem c8_quit_iff_command_q (e : Editor) (hm : e.mode = EditorMode.Command)
    (hq : e.quit = false) :
    ∃ e', stepEvent e (Event.Key KeyCode.Enter) = some e'
      ∧ (e'.quit = true ↔ e.command = ['q']) := by
  refine ⟨e.execute_command, ?_, ?_⟩
  · have ht : translate e.mode (Event.Key KeyCode.Enter) = Action.ExecuteCommand := by
      rw [hm]; rfl
    simp [stepEvent, ht, applyAction]
  · simp only [Editor.execute_command]
    by_cases hc : e.command = ['q'] <;> simp [hc, hq]

/-- Witness for C8: committing the non-command `"z"`. -/
theorem c8_witness :
    ∃ e', stepEvent ⟨⟨0, 0⟩, EditorMode.Command, false, [[]], ['z'], []⟩
        (Event.Key KeyCode.Enter) = some e'
      ∧ (e'.quit = true ↔ (['z'] : List Char) = ['q']) :=
  c8_quit_iff_command_q ⟨⟨0, 0⟩, EditorMode.Command, false, [[]], ['z'], []⟩ rfl rfl

/-- Inserting one character in Insertion mode with the cursor inside the
current line (`column ≤ line length`): the character lands at the cursor
column and the cursor advances by one.  All three source branches (empty
line, column past end, inner insert) agree with `insertIdx` under this
hypothesis. -/
theorem stepEvent_enterChar (e : Editor) (c : Char) (line : List Char)
    (hm : e.mode = EditorMode.Insert) (hline : e.lines[e.cursor.y]? = some line)
    (hxle : e.cursor.x ≤ line.length) (hxmax : e.cursor.x + 1 ≤ usizeMax) :
    stepEvent e (Event.Key (KeyCode.Char c))
      = some { e with lines := e.lines.set e.cursor.y (line.insertIdx e.cursor.x c)
                      cursor := { e.cursor with x := e.cursor.x + 1 } } := by
  have ht : translate e.mode (Event.Key (KeyCode.Char c)) = Action.EnterChar c := by
    rw [hm]; rfl
  simp only [stepEvent, ht, applyAction, hline, Cursor.move_right]
  rw [Nat.min_eq_right hxmax]
  by_cases hemp : line.isEmpty
  · have h0 : line = [] := by simpa [List.isEmpty_iff] using hemp
    subst h0
    have hx0 : e.cursor.x = 0 := Nat.le_zero.mp hxle
    simp [hemp, hx0]
  · have hnlt : ¬ line.length < e.cursor.x := Nat.not_lt.mpr hxle
    simp [hemp, hnlt]

/-- Claim C9: from any Insertion-mode state whose current line is empty
and whose cursor column is 0, typing `a`, `b`, `c` one at a time yields
line content `"abc"` and final cursor column 3. -/
theorem c9_insert_abc_round_trip (e : Editor) (hm : e.mode = EditorMode.Insert)
    (hx : e.cursor.x = 0) (hline : e.lines[e.cursor.y]? = some []) :
    ∃ e', run e [Event.Key (KeyCode.Char 'a'), Event.Key (KeyCode.Char 'b'),
        Event.Key (KeyCode.Char 'c')] = some e'
      ∧ e'.lines[e.cursor.y]? = some ['a', 'b', 'c'] ∧ e'.cursor.x = 3 := by
  obtain ⟨hy, -⟩ := List.getElem?_eq_some_iff.mp hline
  have h1 : stepEvent e (Event.Key (KeyCode.Char 'a'))
      = some { e with lines := e.lines.set e.cursor.y ['a']
                      cursor := { e.cursor with x := 1 } } := by
    have h := stepEvent_enterChar e 'a' [] hm hline (by simp [hx]) (by rw [hx]; decide)
    simpa [hx] using h
  have h2 : stepEvent { e with lines := e.lines.set e.cursor.y ['a']
                               cursor := { e.cursor with x := 1 } }
        (Event.Key (KeyCode.Char 'b'))
      = some { e with lines := e.lines.set e.cursor.y ['a', 'b']
                      cursor := { e.cursor with x := 2 } } := by
    have h := stepEvent_enterChar
      { e with lines := e.lines.set e.cursor.y ['a'], cursor := { e.cursor with x := 1 } }
      'b' ['a'] hm (List.getElem?_set_self hy) (Nat.le_refl 1)
      (show 1 + 1 ≤ usizeMax by decide)
    simpa [List.set_set, show List.insertIdx 1 'b' ['a'] = ['a', 'b'] from rfl] using h
  have h3 : stepEvent { e with lines := e.lines.set e.cursor.y ['a', 'b']
                               cursor := { e.cursor with x := 2 } }
        (Event.Key (KeyCode.Char 'c'))
      = some { e with lines := e.lines.set e.cursor.y ['a', 'b', 'c']
                      cursor := { e.cursor with x := 3 } } := by
    have h := stepEvent_enterChar
      { e with lines := e.lines.set e.cursor.y ['a', 'b'], cursor := { e.cursor with x := 2 } }
      'c' ['a', 'b'] hm (List.getElem?_set_self hy) (Nat.le_refl 2)
      (show 2 + 1 ≤ usizeMax by decide)
    simpa [List.set_set, show List.insertIdx 2 'c' ['a', 'b'] = ['a', 'b', 'c'] from rfl] using h
  refine ⟨{ e with lines := e.lines.set e.cursor.y ['a', 'b', 'c']
                   cursor := { e.cursor with x := 3 } }, ?_, ?_, rfl⟩
  · simp only [run, h1, h2, h3, Option.some_bind]
  · exact List.getElem?_set_self hy

/-- Witness for C9: the round trip on the freshly created buffer placed in
Insertion mode. -/
theorem c9_witness :
    ∃ e', run ⟨⟨0, 0⟩, EditorMode.Insert, false, [[]], [], []⟩
        [Event.Key (KeyCode.Char 'a'), Event.Key (KeyCode.Char 'b'),
         Event.Key (KeyCode.Char 'c')] = some e'
      ∧ e'.lines[(0 : Nat)]? = some ['a', 'b', 'c'] ∧ e'.cursor.x = 3 :=
  c9_insert_abc_round_trip ⟨⟨0, 0⟩, EditorMode.Insert, false, [[]], [], []⟩ rfl rfl rfl

/-- Claim C10: when the cursor row is out of range
(`cursor.row ≥ lines.length`), character insertion, backspace and
delete-under-cursor are silent no-ops: the `lines.get(_mut)` lookup fails
and the state is returned completely unchanged. -/
theorem c10_out_of_range_noop (e : Editor) (c : Char)
    (hrow : e.lines.length ≤ e.cursor.y) :
    applyAction e (Action.EnterChar c) = some e
      ∧ applyAction e Action.BackspaceInInsertMode = some e
      ∧ applyAction e Action.RemoveCursorChar = some e := by
  have hnone : e.lines[e.cursor.y]? = none := List.getElem?_eq_none hrow
  refine ⟨?_, ?_, ?_⟩ <;>
    simp only [applyAction, hnone] <;>
    (repeat' split) <;>
    rfl

/-- Witness for C10: a one-line buffer with cursor row 2. -/
theorem c10_witness :
    applyAction ⟨⟨0, 2⟩, EditorMode.Insert, false, [[]], [], []⟩ (Action.EnterChar 'z')
        = some ⟨⟨0, 2⟩, EditorMode.Insert, false, [[]], [], []⟩
      ∧ applyAction ⟨⟨0, 2⟩, EditorMode.Insert, false, [[]], [], []⟩
          Action.BackspaceInInsertMode
        = some ⟨⟨0, 2⟩, EditorMode.Insert, false, [[]], [], []⟩
      ∧ applyAction ⟨⟨0, 2⟩, EditorMode.Insert, false, [[]], [], []⟩
          Action.RemoveCursorChar
        = some ⟨⟨0, 2⟩, EditorMode.Insert, false, [[]], [], []⟩ :=
  c10_out_of_range_noop ⟨⟨0, 2⟩, EditorMode.Insert, false, [[]], [], []⟩ 'z' (by decide)

end Redit
